import Mathlib

/-
Verification of the task-scheduling backend of the Trivy Web UI
(lazycatapps/trivy).  The definitions below are a shallow embedding of the
Go sources:

  backend/internal/models      (ScanTask, ScanStatus, log streaming)
  backend/internal/repository  (scan repositories, sortTasks, GetAllOldTasks)
  backend/internal/service     (scan_service.go: worker pool, executeScan,
                                processQueue, maskCredentials, buildTrivyArgs,
                                markInterruptedTasksAsFailed, Start)
  backend/internal/handler     (scan_handler.go: StreamLogs)

Machine integers are modelled as Nat or Int; wall-clock timestamps as Nat
(logical instants); Go errors as an Option of an error code returned next to
the unchanged state.
-/

namespace TrivyWeb

/-- Status of a scan task, from models.ScanStatus
("queued" / "running" / "completed" / "failed"). -/
inductive ScanStatus
  | queued
  | running
  | completed
  | failed
deriving DecidableEq, Repr

/-- The Go string value of a status, `string(task.Status)`. -/
def statusString : ScanStatus → String
  | .queued => "queued"
  | .running => "running"
  | .completed => "completed"
  | .failed => "failed"

/-- A log-listener channel from models.ScanTask.LogListeners: a buffered Go
channel of capacity 100.  `buf` is the queue of lines sitting in the buffer,
`closed` records whether close(ch) has been executed. -/
structure LogListener where
  buf : List String
  closed : Bool
deriving DecidableEq, Repr

/-- Capacity of a listener channel, `make(chan string, 100)` in
ScanTask.AddLogListener. -/
def listenerCapacity : Nat := 100

/-- Scan configuration, from models.ScanConfig. -/
structure ScanConfig where
  username : String
  password : String
  tlsVerify : Bool
  severity : List String
  ignoreUnfixed : Bool
  scanners : List String
  detectionPriority : String
  pkgTypes : List String
  format : String
deriving DecidableEq, Repr

/-- A scan task, from models.ScanTask (the fields the verified claims talk
about; timestamps are logical Nat instants). -/
structure ScanTask where
  id : String
  userID : String
  image : String
  status : ScanStatus
  message : String
  startTime : Nat
  endTime : Option Nat
  scanConfig : ScanConfig
  errorOutput : String
  output : String
  logLines : List String
  logListeners : List LogListener
deriving DecidableEq, Repr

/-- models.NewScanTask: a fresh task starts queued with empty logs and no
listeners. -/
def NewScanTask (id userID image : String) (config : ScanConfig) (now : Nat) :
    ScanTask :=
  { id := id
    userID := userID
    image := image
    status := ScanStatus.queued
    message := "Task created and queued"
    startTime := now
    endTime := none
    scanConfig := config
    errorOutput := ""
    output := ""
    logLines := []
    logListeners := [] }

/-- models.ScanTask.AddLog: appends the line to LogLines and broadcasts it to
every listener with a non-blocking send (`select` with a `default` branch):
a listener whose buffer is full, or whose channel is closed, is skipped. -/
def ScanTask.AddLog (t : ScanTask) (line : String) : ScanTask :=
  { t with
    logLines := t.logLines ++ [line]
    logListeners := t.logListeners.map fun ch =>
      if ch.closed = false ∧ ch.buf.length < listenerCapacity then
        { ch with buf := ch.buf ++ [line] }
      else
        ch }

/-- models.ScanTask.AddLogListener: registers a fresh buffered channel and
returns it; the returned Nat is the position of the new listener in
LogListeners (the caller keeps this handle). -/
def ScanTask.AddLogListener (t : ScanTask) : ScanTask × Nat :=
  ({ t with logListeners := t.logListeners ++ [{ buf := [], closed := false }] },
   t.logListeners.length)

/-- models.ScanTask.CloseAllLogListeners: closes every registered channel and
empties LogListeners.  The second component is the subscriber-side view of
the channels after the close (still holding their buffered lines). -/
def ScanTask.CloseAllLogListeners (t : ScanTask) : ScanTask × List LogListener :=
  ({ t with logListeners := [] },
   t.logListeners.map fun ch => { ch with closed := true })

/-- models.ScanTask.GetLogLines: a snapshot copy of LogLines. -/
def ScanTask.GetLogLines (t : ScanTask) : List String := t.logLines

/-! ## Scheduler / worker pool (scan_service.go) -/

/-- NewScanServiceWithExecutor: the capacity of the workerPool semaphore
channel; `config.MaxWorkers` is a Go int, and a value at most 0 is replaced
by the default of 5 concurrent scans. -/
def effectiveMaxWorkers (configured : Int) : Nat :=
  if configured ≤ 0 then 5 else configured.toNat

/-- Scheduler view of one task: its status together with whether the
goroutine driving it currently holds a workerPool slot (acquired before
executeScan starts, released by the deferred receive after it returns). -/
structure WorkerTask where
  status : ScanStatus
  holdsSlot : Bool
deriving DecidableEq, Repr

/-- Scheduler state: `slotsHeld` is the number of tokens currently inside the
workerPool channel (a counting semaphore), `tasks` the tasks known to the
service. -/
structure SchedState where
  slotsHeld : Nat
  tasks : List WorkerTask
deriving DecidableEq, Repr

/-- One scheduler transition of scan_service.go, for a pool of capacity
`maxWorkers`.  Tasks are addressed by decomposing the task list around the
affected entry.

* `createTask`: CreateScanTask persists a fresh queued task (repo.Create).
* `acquireSlot`: the non-blocking `select` in CreateScanTask succeeds,
  placing a token in workerPool and spawning the executeScan goroutine for
  the just-created (still queued) task.
* `sweepTick`: one tick of processQueue.  Its transient acquire is always
  followed by a release because getNextQueuedTask returns nil, so the net
  effect on the state is the identity.
* `startScan`: the spawned executeScan goroutine performs its first write,
  task.Status = running.
* `finishCompleted` / `finishFailed`: executeScan reaches its success path or
  calls failTask; the slot is still held until the deferred release runs.
* `releaseSlot`: the goroutine returns and `defer func() { <-workerPool }`
  removes a token. -/
inductive SchedStep (maxWorkers : Nat) : SchedState → SchedState → Prop
  | createTask (s : SchedState) :
      SchedStep maxWorkers s
        { s with tasks := s.tasks ++ [⟨ScanStatus.queued, false⟩] }
  | acquireSlot (s : SchedState) (pre post : List WorkerTask) :
      s.slotsHeld < maxWorkers →
      s.tasks = pre ++ ⟨ScanStatus.queued, false⟩ :: post →
      SchedStep maxWorkers s
        { slotsHeld := s.slotsHeld + 1
          tasks := pre ++ ⟨ScanStatus.queued, true⟩ :: post }
  | sweepTick (s : SchedState) : SchedStep maxWorkers s s
  | startScan (s : SchedState) (pre post : List WorkerTask) :
      s.tasks = pre ++ ⟨ScanStatus.queued, true⟩ :: post →
      SchedStep maxWorkers s
        { s with tasks := pre ++ ⟨ScanStatus.running, true⟩ :: post }
  | finishCompleted (s : SchedState) (pre post : List WorkerTask) :
      s.tasks = pre ++ ⟨ScanStatus.running, true⟩ :: post →
      SchedStep maxWorkers s
        { s with tasks := pre ++ ⟨ScanStatus.completed, true⟩ :: post }
  | finishFailed (s : SchedState) (pre post : List WorkerTask) :
      s.tasks = pre ++ ⟨ScanStatus.running, true⟩ :: post →
      SchedStep maxWorkers s
        { s with tasks := pre ++ ⟨ScanStatus.failed, true⟩ :: post }
  | releaseSlot (s : SchedState) (st : ScanStatus) (pre post : List WorkerTask) :
      st = ScanStatus.completed ∨ st = ScanStatus.failed →
      s.tasks = pre ++ ⟨st, true⟩ :: post →
      SchedStep maxWorkers s
        { slotsHeld := s.slotsHeld - 1
          tasks := pre ++ ⟨st, false⟩ :: post }

/-- The scheduler starts with an empty semaphore and no tasks. -/
def initSchedState : SchedState := { slotsHeld := 0, tasks := [] }

/-- States reachable by the scheduler built with configured MaxWorkers. -/
def SchedReachable (configured : Int) (s : SchedState) : Prop :=
  Relation.ReflTransGen (SchedStep (effectiveMaxWorkers configured))
    initSchedState s

/-- Number of tasks currently in running status. -/
def countRunning (ts : List WorkerTask) : Nat :=
  ts.countP fun t => t.status == ScanStatus.running

/-- Number of tasks whose goroutine holds a workerPool slot. -/
def countSlots (ts : List WorkerTask) : Nat :=
  ts.countP fun t => t.holdsSlot

/-- getNextQueuedTask (scan_service.go): the body is a placeholder that
unconditionally returns nil ("Placeholder - will be improved"). -/
def getNextQueuedTask (_s : SchedState) : Option Nat := none

/-- processQueue (scan_service.go): non-blocking acquire of a workerPool
slot; on success ask getNextQueuedTask for a task — if there is none the slot
is released again and the tick is over, otherwise the task would be started.
Because getNextQueuedTask always returns none, the `some` branch is dead
code. -/
def processQueue (maxWorkers : Nat) (s : SchedState) : SchedState :=
  if s.slotsHeld < maxWorkers then
    match getNextQueuedTask s with
    | none => s
    | some i =>
        { slotsHeld := s.slotsHeld + 1
          tasks := s.tasks.set i ⟨ScanStatus.running, true⟩ }
  else s

/-! ## Task store (file_scan_repository.go / repository.go) -/

/-- Error values returned by the repository layer (pkg/errors taxonomy):
AlreadyExists, NotFound, StorageFailure. -/
inductive RepoError
  | alreadyExists
  | notFound
  | storageFailure
deriving DecidableEq, Repr

/-- The in-memory index of a repository: the `tasks` map, keyed by task id. -/
abbrev RepoIndex := List (String × ScanTask)

/-- FileScanRepository.GetByID: map lookup, `nil, nil` when absent (absence
is a normal result, not an error). -/
def repoGetByID (idx : RepoIndex) (id : String) : Option ScanTask :=
  idx.lookup id

/-- FileScanRepository.Create: fails AlreadyExists when the id is present;
otherwise saveTaskToFile first — when that durable write fails
(`diskWriteOk = false`) the error is returned before the in-memory index is
touched — and only then the index is updated.  Returns the new index next to
the error slot. -/
def repoCreate (idx : RepoIndex) (t : ScanTask) (diskWriteOk : Bool) :
    RepoIndex × Option RepoError :=
  match idx.lookup t.id with
  | some _ => (idx, some RepoError.alreadyExists)
  | none =>
      if diskWriteOk then (idx ++ [(t.id, t)], none)
      else (idx, some RepoError.storageFailure)

/-- FileScanRepository.Update: fails NotFound when the id is absent;
otherwise durable write then index update, same ordering as Create. -/
def repoUpdate (idx : RepoIndex) (t : ScanTask) (diskWriteOk : Bool) :
    RepoIndex × Option RepoError :=
  match idx.lookup t.id with
  | none => (idx, some RepoError.notFound)
  | some _ =>
      if diskWriteOk then
        (idx.map fun p => if p.1 = t.id then (t.id, t) else p, none)
      else (idx, some RepoError.storageFailure)

/-- FileScanRepository.Delete: fails NotFound when the id is absent;
otherwise the task file is removed from disk (failure leaves the index
untouched) and then the entry is deleted from the map. -/
def repoDelete (idx : RepoIndex) (id : String) (diskDeleteOk : Bool) :
    RepoIndex × Option RepoError :=
  match idx.lookup id with
  | none => (idx, some RepoError.notFound)
  | some _ =>
      if diskDeleteOk then
        (idx.filter fun p => decide (p.1 ≠ id), none)
      else (idx, some RepoError.storageFailure)

/-- The filter of repository List: keep the tasks of the requested user, and
when the status filter is non-empty only those whose status string matches. -/
def listMatch (userID filterStatus : String) (t : ScanTask) : Bool :=
  decide (t.userID = userID) &&
    (decide (filterStatus = "") || decide (statusString t.status = filterStatus))

/-- The comparator of sortTasks (repository.go): "startTime" and the default
compare creation times; "endTime" orders nil completion times last; a "desc"
sort order negates the comparison. -/
def sortLess (sortBy sortOrder : String) (a b : ScanTask) : Bool :=
  let less :=
    if sortBy = "startTime" then decide (a.startTime < b.startTime)
    else if sortBy = "endTime" then
      match a.endTime, b.endTime with
      | none, _ => false
      | some _, none => true
      | some x, some y => decide (x < y)
    else decide (a.startTime < b.startTime)
  if sortOrder = "desc" then !less else less

/-- sortTasks (repository.go): sort.Slice with the sortLess comparator. -/
def sortTasks (tasks : List ScanTask) (sortBy sortOrder : String) :
    List ScanTask :=
  tasks.mergeSort fun a b => sortLess sortBy sortOrder a b

/-- Repository List (named repoList here because `List` is taken in Lean):
filter by user and status, count the matches, sort, then slice the page.
Pages are 1-indexed: the slice covers offsets (page-1)*pageSize up to
start+pageSize clamped to the total; a start offset at or past the total
yields an empty page with the correct total.  The Go method always returns a
nil error, hence no error slot here. -/
def repoList (tasks : List ScanTask) (userID filterStatus : String)
    (page pageSize : Nat) (sortBy sortOrder : String) :
    List ScanTask × Nat :=
  let filtered := tasks.filter (listMatch userID filterStatus)
  let total := filtered.length
  let sorted := sortTasks filtered sortBy sortOrder
  let start := (page - 1) * pageSize
  let stop := start + pageSize
  if start ≥ total then ([], total)
  else
    let stop' := if stop > total then total else stop
    ((sorted.drop start).take (stop' - start), total)

/-! ## Lifecycle manager: crash recovery and retention -/

/-- The effective timestamp of GetAllOldTasks: EndTime when present,
otherwise StartTime. -/
def taskEffectiveTime (t : ScanTask) : Nat :=
  match t.endTime with
  | some e => e
  | none => t.startTime

/-- GetAllOldTasks (repository.go): only completed or failed tasks are
considered, and a task is returned exactly when its effective timestamp is
strictly before the cutoff. -/
def GetAllOldTasks (cutoffTime : Nat) (tasks : List ScanTask) :
    List ScanTask :=
  tasks.filter fun task =>
    decide ((task.status = ScanStatus.completed ∨
        task.status = ScanStatus.failed) ∧
      taskEffectiveTime task < cutoffTime)

/-- cleanupOldReports (scan_service.go), deletion phase: every task returned
by GetAllOldTasks is deleted through repo.Delete by its id.  Ids are the keys
of the repository map, so deleting the selected tasks leaves exactly the
complement. -/
def cleanupOldReports (cutoffTime : Nat) (tasks : List ScanTask) :
    List ScanTask :=
  tasks.filter fun task =>
    !(decide ((task.status = ScanStatus.completed ∨
        task.status = ScanStatus.failed) ∧
      taskEffectiveTime task < cutoffTime))

/-- The per-task body of markInterruptedTasksAsFailed: status forced to
failed, restart message and completion timestamp set, the two recovery log
lines appended through AddLog, and all listeners closed. -/
def markTaskInterrupted (now : Nat) (t : ScanTask) : ScanTask :=
  let t1 : ScanTask :=
    { t with
      status := ScanStatus.failed
      message := "Scan interrupted by server restart"
      endTime := some now
      errorOutput := "Server was restarted while this scan was in progress" }
  let t2 := t1.AddLog "ERROR: Scan interrupted by server restart"
  let t3 := t2.AddLog ("Task marked as failed at " ++ toString now)
  (t3.CloseAllLogListeners).1

/-- markInterruptedTasksAsFailed (scan_service.go): every task found by
GetAllRunningTasks — i.e. every task whose status is running — is marked
interrupted; all other tasks are untouched. -/
def markInterruptedTasksAsFailed (now : Nat) (tasks : List ScanTask) :
    List ScanTask :=
  tasks.map fun t =>
    if t.status = ScanStatus.running then markTaskInterrupted now t else t

/-- The state of the scan service after Start returns. -/
structure ServiceState where
  tasks : List ScanTask
  queueWorkerStarted : Bool
  cleanupWorkerStarted : Bool
deriving DecidableEq, Repr

/-- Start (scan_service.go): markInterruptedTasksAsFailed runs synchronously
first, before `go queueWorker()` is spawned, so the queue worker only ever
sees the recovered task set; the cleanup worker is spawned only when
config.ScanRetentionDays is positive. -/
def serviceStart (scanRetentionDays : Int) (now : Nat)
    (tasks : List ScanTask) : ServiceState :=
  { tasks := markInterruptedTasksAsFailed now tasks
    queueWorkerStarted := true
    cleanupWorkerStarted := decide (scanRetentionDays > 0) }

/-! ## Per-task status writes (executeScan, failTask, recovery) -/

/-- The status writes the service performs on a task, with the guards of
their call sites:

* executeScan is spawned only for a task that CreateScanTask has just
  persisted in queued status, making `task.Status = running` its first write;
* its success path writes completed from running;
* failTask is called only from executeScan, after the running write;
* markInterruptedTasksAsFailed writes failed only on tasks returned by
  GetAllRunningTasks.

No operation of the service writes the queued status after creation. -/
inductive StatusWrite : ScanStatus → ScanStatus → Prop
  | executeScanStart : StatusWrite ScanStatus.queued ScanStatus.running
  | executeScanComplete : StatusWrite ScanStatus.running ScanStatus.completed
  | failTaskWrite : StatusWrite ScanStatus.running ScanStatus.failed
  | recoveryWrite : StatusWrite ScanStatus.running ScanStatus.failed

/-- The sequence of status values a task has held, most recent first.  Every
task starts in queued status (NewScanTask) and each later value comes from
one of the status writes above. -/
inductive StatusHistory : List ScanStatus → Prop
  | init : StatusHistory [ScanStatus.queued]
  | step {a b : ScanStatus} {l : List ScanStatus} :
      StatusHistory (a :: l) → StatusWrite a b → StatusHistory (b :: a :: l)

/-! ## StreamLogs (scan_handler.go) -/

/-- The StreamLogs handler under the schedule in which the producer appends
all of `later` before the subscriber goroutine drains: the handler registers
a listener (AddLogListener), snapshots the existing lines (GetLogLines) and
replays them, the producer then appends `later` through AddLog, the task
completes (CloseAllLogListeners), and finally the subscriber drains whatever
sits in its now-closed channel.  Returns the full line sequence the
subscriber received and whether it observed the close. -/
def streamLogsRun (t : ScanTask) (later : List String) :
    List String × Bool :=
  let conn := t.AddLogListener
  let t1 := conn.1
  let idx := conn.2
  let snapshot := t1.GetLogLines
  let t2 := later.foldl ScanTask.AddLog t1
  let closedChans := (t2.CloseAllLogListeners).2
  match closedChans[idx]? with
  | some ch => (snapshot ++ ch.buf, ch.closed)
  | none => (snapshot, false)

/-! ## maskCredentials and buildTrivyArgs (scan_service.go) -/

/-- maskCredentials (scan_service.go): the index loop
`for i := 0; i < len(masked)-1; i++` over the copied slice.  The loop reads
`masked[i]` — the possibly already-overwritten entry — and when it equals
"--password" or "--username" overwrites `masked[i+1]` with "***". -/
def maskCredentialsLoop (masked : List String) (i : Nat) : List String :=
  if h : i + 1 < masked.length then
    maskCredentialsLoop
      (if masked.get ⟨i, by omega⟩ = "--password" ∨
          masked.get ⟨i, by omega⟩ = "--username"
        then masked.set (i + 1) "***" else masked)
      (i + 1)
  else masked
termination_by masked.length - i
decreasing_by
  split
  · simp only [List.length_set]; omega
  · omega

/-- maskCredentials: run the loop from index 0 on a copy of args. -/
def maskCredentials (args : List String) : List String :=
  maskCredentialsLoop args 0

/-- Structural form of the maskCredentials scan, used for reasoning: a
credential flag masks its successor with "***" and scanning resumes behind
the overwritten entry (which, being "***", can no longer act as a flag).
Proven equal to maskCredentials below. -/
def maskRec : List String → List String
  | [] => []
  | [a] => [a]
  | a :: b :: rest =>
      if a = "--password" ∨ a = "--username" then
        a :: "***" :: maskRec rest
      else
        a :: maskRec (b :: rest)

/-- The masking behaviour claimed by the spec sentence: in the output, the
entry one past every occurrence of "--username" or "--password" in the
ORIGINAL argument list is "***", and every other entry is unchanged.
`maskSpecAfter prev l` maps the tail `l` given the original entry `prev`
standing directly before it. -/
def maskSpecAfter (prev : String) : List String → List String
  | [] => []
  | b :: rest =>
      (if prev = "--password" ∨ prev = "--username" then "***" else b) ::
        maskSpecAfter b rest

/-- The spec-described masking of a whole argument list. -/
def maskSpecClaim : List String → List String
  | [] => []
  | a :: rest => a :: maskSpecAfter a rest

/-- strings.Join with a comma separator. -/
def joinComma (parts : List String) : String := String.intercalate "," parts

/-- The arguments buildTrivyArgs appends after the credential flags, in the
order the Go code appends them: TLS, severity, ignore-unfixed, scanners,
detection priority, package types, format, and finally the image to scan. -/
def argsTail (cfg : ScanConfig) (image : String) : List String :=
  (if cfg.tlsVerify = false then ["--insecure"] else [])
    ++ (if cfg.severity ≠ [] then ["--severity", joinComma cfg.severity] else [])
    ++ (if cfg.ignoreUnfixed then ["--ignore-unfixed"] else [])
    ++ (if cfg.scanners ≠ [] then ["--scanners", joinComma cfg.scanners] else [])
    ++ (if cfg.detectionPriority ≠ "" then
          ["--detection-priority", cfg.detectionPriority] else [])
    ++ (if cfg.pkgTypes ≠ [] then ["--pkg-types", joinComma cfg.pkgTypes] else [])
    ++ (if cfg.format ≠ "" then ["--format", cfg.format] else [])
    ++ [image]

/-- buildTrivyArgs (scan_service.go): the argument list handed to the trivy
subprocess, in the order the Go code appends it (the part after the
credential flags is split out as argsTail). -/
def buildTrivyArgs (serverURL : String) (cfg : ScanConfig) (image : String) :
    List String :=
  ["image"]
    ++ (if serverURL ≠ "" then ["--server", serverURL] else [])
    ++ ["--skip-db-update"]
    ++ ["--image-src", "remote"]
    ++ ["--timeout", "10m"]
    ++ (if cfg.username ≠ "" then ["--username", cfg.username] else [])
    ++ (if cfg.password ≠ "" then ["--password", cfg.password] else [])
    ++ argsTail cfg image

/-- The command line executeScan records in the task log before running the
subprocess: "Executing: trivy " followed by the masked argument list joined
with spaces. -/
def loggedCommand (serverURL : String) (cfg : ScanConfig) (image : String) :
    String :=
  "Executing: trivy " ++
    String.intercalate " " (maskCredentials (buildTrivyArgs serverURL cfg image))

/-! ## Auxiliary definitions for the proofs -/

/-- The scheduler invariant: the semaphore never exceeds its capacity, it
holds exactly one token per slot-holding task, and every running task holds
a slot. -/
def SchedInv (maxWorkers : Nat) (s : SchedState) : Prop :=
  s.slotsHeld ≤ maxWorkers ∧
  countSlots s.tasks = s.slotsHeld ∧
  ∀ t ∈ s.tasks, t.status = ScanStatus.running → t.holdsSlot = true

/-- A concrete scan configuration (the defaults CreateScanTask fills in). -/
def sampleConfig : ScanConfig :=
  { username := ""
    password := ""
    tlsVerify := true
    severity := []
    ignoreUnfixed := false
    scanners := ["vuln"]
    detectionPriority := "precise"
    pkgTypes := []
    format := "json" }

/-- A concrete task of user "user" in a given status, for witnesses. -/
def sampleTask (id : String) (st : ScanStatus) (start : Nat)
    (endT : Option Nat) : ScanTask :=
  { NewScanTask id "user" "alpine:latest" sampleConfig start with
    status := st, endTime := endT }

/-- Fallback element for List.getD on task lists. -/
def dummyTask : ScanTask := NewScanTask "" "" "" sampleConfig 0

/-- A repository holding one running and one terminal task. -/
def tasksRec : List ScanTask :=
  [sampleTask "r1" ScanStatus.running 0 none,
   sampleTask "c1" ScanStatus.completed 0 (some 5)]

/-- Five tasks of user "user", as in the page-1000000 scenario of the spec. -/
def tasks5 : List ScanTask :=
  [sampleTask "t1" ScanStatus.completed 1 (some 2),
   sampleTask "t2" ScanStatus.completed 2 (some 3),
   sampleTask "t3" ScanStatus.failed 3 (some 4),
   sampleTask "t4" ScanStatus.running 4 none,
   sampleTask "t5" ScanStatus.queued 5 none]

/-! # Theorems -/

/-! ## C2: the periodic sweep never admits a queued task -/

/-- C2.  The claim says one tick of processQueue admits the next eligible
queued task when a slot is free and a queued task exists.  In the code,
getNextQueuedTask is an unconditional `return nil` placeholder, so every
processQueue tick — free slot or not, queued tasks or not — leaves the
scheduler state exactly as it was: the sweep never admits anything, and a
task that missed the immediate-start path in CreateScanTask stays queued
forever.  This contradicts both the claim and the code's own doc comments
("getNextQueuedTask retrieves the next queued task across all users
(FIFO)"). -/
theorem C2_processQueue_noop (maxWorkers : Nat) (s : SchedState) :
    processQueue maxWorkers s = s := by
  simp [processQueue, getNextQueuedTask]

/-! ## C3: per-task status sequences -/

/-- Every status history is one of the four concrete sequences the service
can produce. -/
theorem statusHistory_classify {l : List ScanStatus} (h : StatusHistory l) :
    l = [ScanStatus.queued] ∨
    l = [ScanStatus.running, ScanStatus.queued] ∨
    l = [ScanStatus.completed, ScanStatus.running, ScanStatus.queued] ∨
    l = [ScanStatus.failed, ScanStatus.running, ScanStatus.queued] := by
  induction h with
  | init => exact Or.inl rfl
  | step h w ih =>
    rcases ih with h1 | h1 | h1 | h1 <;>
      (simp only [List.cons.injEq] at h1) <;>
      (obtain ⟨rfl, rfl⟩ := h1) <;>
      cases w <;> simp

/-- C3.  The sequence of status values written over a task's lifetime, read
oldest first, is a prefix of queued-running-completed, of
queued-running-failed, or of queued-failed: no operation writes queued after
the task has left it, and no operation changes a task that is already
completed or failed (StatusWrite has no transition out of a terminal
status). -/
theorem C3_status_sequence {l : List ScanStatus} (h : StatusHistory l) :
    l.reverse =
      [ScanStatus.queued, ScanStatus.running, ScanStatus.completed].take
        l.length ∨
    l.reverse =
      [ScanStatus.queued, ScanStatus.running, ScanStatus.failed].take
        l.length ∨
    l.reverse = [ScanStatus.queued, ScanStatus.failed].take l.length := by
  rcases statusHistory_classify h with h1 | h1 | h1 | h1 <;> subst h1 <;> decide

/-- Witness for C3 at the concrete history queued-running-completed. -/
theorem C3_status_sequence_witness :
    StatusHistory
      [ScanStatus.completed, ScanStatus.running, ScanStatus.queued] ∧
    ([ScanStatus.completed, ScanStatus.running, ScanStatus.queued].reverse =
      [ScanStatus.queued, ScanStatus.running, ScanStatus.completed].take 3 ∨
    [ScanStatus.completed, ScanStatus.running, ScanStatus.queued].reverse =
      [ScanStatus.queued, ScanStatus.running, ScanStatus.failed].take 3 ∨
    [ScanStatus.completed, ScanStatus.running, ScanStatus.queued].reverse =
      [ScanStatus.queued, ScanStatus.failed].take 3) := by
  have hh : StatusHistory
      [ScanStatus.completed, ScanStatus.running, ScanStatus.queued] :=
    StatusHistory.step
      (StatusHistory.step StatusHistory.init StatusWrite.executeScanStart)
      StatusWrite.executeScanComplete
  exact ⟨hh, C3_status_sequence hh⟩

/-! ## C6: retention sweep selection -/

/-- C6.  GetAllOldTasks at cutoff T selects exactly the terminal tasks whose
effective timestamp (completion time when present, else creation time) is
strictly before T; the deletion phase keeps exactly the complement; queued
and running tasks are never selected regardless of age; and a zero retention
window means Start does not spawn a cleanup worker at all. -/
theorem C6_retention_selection (cutoffTime : Nat) (tasks : List ScanTask) :
    (∀ t : ScanTask, t ∈ GetAllOldTasks cutoffTime tasks ↔
      (t ∈ tasks ∧
        (t.status = ScanStatus.completed ∨ t.status = ScanStatus.failed) ∧
        taskEffectiveTime t < cutoffTime)) ∧
    (∀ t : ScanTask, t ∈ cleanupOldReports cutoffTime tasks ↔
      (t ∈ tasks ∧
        ¬((t.status = ScanStatus.completed ∨ t.status = ScanStatus.failed) ∧
          taskEffectiveTime t < cutoffTime))) ∧
    (∀ t ∈ tasks,
      t.status = ScanStatus.queued ∨ t.status = ScanStatus.running →
      t ∉ GetAllOldTasks cutoffTime tasks) ∧
    (∀ (now : Nat) (ts : List ScanTask),
      (serviceStart 0 now ts).cleanupWorkerStarted = false) := by
  refine ⟨?_, ?_, ?_, ?_⟩
  · intro t
    simp [GetAllOldTasks, List.mem_filter]
  · intro t
    simp only [cleanupOldReports, List.mem_filter, Bool.not_eq_true',
      decide_eq_false_iff_not]
  · intro t ht hst hmem
    simp [GetAllOldTasks, List.mem_filter] at hmem
    rcases hst with h | h <;> rcases hmem.2.1 with h2 | h2 <;> simp [h] at h2
  · intro now ts
    simp [serviceStart]

/-- Witness for C6: an old running task is not selected by the sweep. -/
theorem C6_retention_selection_witness :
    sampleTask "t4" ScanStatus.running 4 none ∉
      GetAllOldTasks 1000 tasks5 := by
  exact (C6_retention_selection 1000 tasks5).2.2.1
    (sampleTask "t4" ScanStatus.running 4 none)
    (by simp [tasks5]) (Or.inr rfl)

/-! ## C9: AddLog is append-only with non-blocking delivery -/

/-- C9.  AddLog appends exactly one line at the end of the log,
unconditionally: the existing lines are a prefix of the new log, its length
grows by one, and the new last line is the appended one.  Delivery to
listeners is non-blocking and at-most-once: an open listener whose buffer
has room receives the line at the end of its buffer, while a listener with a
full buffer (100 pending lines) is skipped and left untouched.  No field of
the task other than logLines and logListeners is modified. -/
theorem C9_addLog_append_only (t : ScanTask) (line : String) :
    ((t.AddLog line).logLines.take t.logLines.length = t.logLines ∧
      (t.AddLog line).logLines.length = t.logLines.length + 1 ∧
      (t.AddLog line).logLines.getLast? = some line) ∧
    (t.AddLog line).logListeners.length = t.logListeners.length ∧
    (∀ (i : Nat) (ch : LogListener), t.logListeners[i]? = some ch →
      (ch.closed = false → ch.buf.length < listenerCapacity →
        (t.AddLog line).logListeners[i]? =
          some { ch with buf := ch.buf ++ [line] }) ∧
      (listenerCapacity ≤ ch.buf.length →
        (t.AddLog line).logListeners[i]? = some ch)) ∧
    ((t.AddLog line).id = t.id ∧ (t.AddLog line).userID = t.userID ∧
      (t.AddLog line).image = t.image ∧ (t.AddLog line).status = t.status ∧
      (t.AddLog line).message = t.message ∧
      (t.AddLog line).startTime = t.startTime ∧
      (t.AddLog line).endTime = t.endTime ∧
      (t.AddLog line).scanConfig = t.scanConfig ∧
      (t.AddLog line).errorOutput = t.errorOutput ∧
      (t.AddLog line).output = t.output) := by
  refine ⟨⟨?_, ?_, ?_⟩, ?_, ?_, ?_⟩
  · simp [ScanTask.AddLog]
  · simp [ScanTask.AddLog]
  · simp [ScanTask.AddLog]
  · simp [ScanTask.AddLog]
  · intro i ch hch
    constructor
    · intro hcl hlen
      simp [ScanTask.AddLog, List.getElem?_map, hch, hcl, hlen]
    · intro hfull
      have hcond : ¬(ch.closed = false ∧ ch.buf.length < listenerCapacity) := by
        rintro ⟨-, hlt⟩
        omega
      simp [ScanTask.AddLog, List.getElem?_map, hch, hcond]
  · exact ⟨rfl, rfl, rfl, rfl, rfl, rfl, rfl, rfl, rfl, rfl⟩

/-- Witness for C9 on a task with one empty listener and one full one. -/
theorem C9_addLog_append_only_witness :
    (({ sampleTask "w9" ScanStatus.running 0 none with
        logListeners := [{ buf := [], closed := false },
          { buf := List.replicate 100 "old", closed := false }] } :
        ScanTask).AddLog "fresh").logListeners[0]? =
      some { buf := [] ++ ["fresh"], closed := false } ∧
    (({ sampleTask "w9" ScanStatus.running 0 none with
        logListeners := [{ buf := [], closed := false },
          { buf := List.replicate 100 "old", closed := false }] } :
        ScanTask).AddLog "fresh").logListeners[1]? =
      some { buf := List.replicate 100 "old", closed := false } := by
  refine ⟨?_, ?_⟩
  · exact ((C9_addLog_append_only
      ({ sampleTask "w9" ScanStatus.running 0 none with
        logListeners := [{ buf := [], closed := false },
          { buf := List.replicate 100 "old", closed := false }] } : ScanTask)
      "fresh").2.2.1 0 { buf := [], closed := false } rfl).1 rfl
      (by simp [listenerCapacity])
  · exact ((C9_addLog_append_only
      ({ sampleTask "w9" ScanStatus.running 0 none with
        logListeners := [{ buf := [], closed := false },
          { buf := List.replicate 100 "old", closed := false }] } : ScanTask)
      "fresh").2.2.1 1 { buf := List.replicate 100 "old", closed := false }
      rfl).2 (by simp [listenerCapacity])

/-! ## C7: task store mutating operations -/

/-- After filtering out every pair with a given key, lookup of that key is
none. -/
theorem lookup_filter_ne (idx : RepoIndex) (id : String) :
    (idx.filter fun p => decide (p.1 ≠ id)).lookup id = none := by
  induction idx with
  | nil => rfl
  | cons p rest ih =>
    obtain ⟨k, v⟩ := p
    rw [List.filter_cons]
    by_cases hp : k = id
    · rw [if_neg (by simp [hp])]
      exact ih
    · rw [if_pos (by simp [hp])]
      have hbk : (id == k) = false :=
        beq_eq_false_iff_ne.mpr fun hh => hp hh.symm
      simp only [List.lookup_cons, hbk]
      exact ih

/-- C7.  Create fails AlreadyExists on a present id and changes nothing;
Create whose durable write fails leaves no trace of the task in the
in-memory index; Update and Delete fail NotFound on an absent id and change
nothing; and after a successful Delete a GetByID of the id returns absence —
the same `none` an id that was never created yields. -/
theorem C7_store_mutations
    (idx : RepoIndex) (t told : ScanTask) (dk : Bool)
    (idx2 : RepoIndex) (t2 : ScanTask)
    (hpresent : idx.lookup t.id = some told)
    (habsent : idx2.lookup t2.id = none) :
    repoCreate idx t dk = (idx, some RepoError.alreadyExists) ∧
    (repoCreate idx2 t2 false = (idx2, some RepoError.storageFailure) ∧
      repoGetByID (repoCreate idx2 t2 false).1 t2.id = none) ∧
    repoUpdate idx2 t2 dk = (idx2, some RepoError.notFound) ∧
    repoDelete idx2 t2.id dk = (idx2, some RepoError.notFound) ∧
    repoGetByID (repoDelete idx t.id true).1 t.id = none := by
  refine ⟨?_, ⟨?_, ?_⟩, ?_, ?_, ?_⟩
  · simp [repoCreate, hpresent]
  · simp [repoCreate, habsent]
  · simp [repoCreate, repoGetByID, habsent]
  · simp [repoUpdate, habsent]
  · simp [repoDelete, habsent]
  · have hres : repoDelete idx t.id true =
        (idx.filter fun p => decide (p.1 ≠ t.id), none) := by
      simp [repoDelete, hpresent]
    rw [hres]
    exact lookup_filter_ne idx t.id

/-- Witness for C7: delete then get on a concrete one-task store. -/
theorem C7_store_mutations_witness :
    repoGetByID
      (repoDelete [("a", sampleTask "a" ScanStatus.queued 0 none)] "a"
        true).1 "a" = none := by
  exact (C7_store_mutations
    [("a", sampleTask "a" ScanStatus.queued 0 none)]
    (sampleTask "a" ScanStatus.queued 0 none)
    (sampleTask "a" ScanStatus.queued 0 none) true
    [] (sampleTask "b" ScanStatus.queued 0 none)
    (by rfl) (by rfl)).2.2.2.2

/-! ## C5: crash recovery on Start -/

/-- C5.  serviceStart runs crash recovery synchronously before the queue
worker is spawned: every task whose persisted status is running comes out
failed, with the "Scan interrupted by server restart" message, a completion
timestamp, and an emptied (all-closed) listener set; a task in any other
status is returned unchanged. -/
theorem C5_crash_recovery (days : Int) (now : Nat) (tasks : List ScanTask)
    (i : Nat) (h : i < tasks.length) :
    (serviceStart days now tasks).tasks.length = tasks.length ∧
    (serviceStart days now tasks).queueWorkerStarted = true ∧
    ((tasks.getD i dummyTask).status = ScanStatus.running →
      ((serviceStart days now tasks).tasks.getD i dummyTask).status =
          ScanStatus.failed ∧
        ((serviceStart days now tasks).tasks.getD i dummyTask).message =
          "Scan interrupted by server restart" ∧
        ((serviceStart days now tasks).tasks.getD i dummyTask).endTime =
          some now ∧
        ((serviceStart days now tasks).tasks.getD i dummyTask).logListeners =
          []) ∧
    ((tasks.getD i dummyTask).status ≠ ScanStatus.running →
      (serviceStart days now tasks).tasks.getD i dummyTask =
        tasks.getD i dummyTask) := by
  have hlen : (serviceStart days now tasks).tasks.length = tasks.length := by
    simp [serviceStart, markInterruptedTasksAsFailed]
  have hget : (serviceStart days now tasks).tasks.getD i dummyTask =
      if (tasks.getD i dummyTask).status = ScanStatus.running then
        markTaskInterrupted now (tasks.getD i dummyTask)
      else tasks.getD i dummyTask := by
    rw [List.getD_eq_getElem _ _ (by rw [hlen]; omega),
      List.getD_eq_getElem _ _ (by omega : i < tasks.length)]
    simp [serviceStart, markInterruptedTasksAsFailed, List.getElem_map]
  refine ⟨hlen, rfl, ?_, ?_⟩
  · intro hrun
    rw [hget, if_pos hrun]
    exact ⟨rfl, rfl, rfl, rfl⟩
  · intro hnot
    rw [hget, if_neg hnot]

/-- Witness for C5 on a store holding a running and a completed task. -/
theorem C5_crash_recovery_witness :
    ((serviceStart 7 99 tasksRec).tasks.getD 0 dummyTask).status =
        ScanStatus.failed ∧
      ((serviceStart 7 99 tasksRec).tasks.getD 0 dummyTask).endTime =
        some 99 ∧
      (serviceStart 7 99 tasksRec).tasks.getD 1 dummyTask =
        tasksRec.getD 1 dummyTask := by
  have h0 := (C5_crash_recovery 7 99 tasksRec 0 (by decide)).2.2.1 (by decide)
  have h1 := (C5_crash_recovery 7 99 tasksRec 1 (by decide)).2.2.2 (by decide)
  exact ⟨h0.1, h0.2.2.1, h1⟩

/-! ## C8: paginated listing -/

/-- C8.  Repository List returns the total count of the tasks matching the
owner and optional status filter next to the page slice, pages being
1-indexed; a page whose start offset (page-1)*pageSize is at or past the
total yields an empty slice together with the correct total and no error;
and in general the slice holds min(pageSize, total - start) items. -/
theorem C8_pagination (tasks : List ScanTask) (userID filterStatus : String)
    (page pageSize : Nat) (sortBy sortOrder : String) (hpage : 1 ≤ page) :
    (repoList tasks userID filterStatus page pageSize sortBy sortOrder).2 =
      (tasks.filter (listMatch userID filterStatus)).length ∧
    ((page - 1) * pageSize ≥
        (tasks.filter (listMatch userID filterStatus)).length →
      (repoList tasks userID filterStatus page pageSize sortBy sortOrder).1 =
        []) ∧
    (repoList tasks userID filterStatus page pageSize sortBy
        sortOrder).1.length =
      min pageSize
        ((tasks.filter (listMatch userID filterStatus)).length -
          (page - 1) * pageSize) := by
  simp only [repoList]
  set total := (tasks.filter (listMatch userID filterStatus)).length with htotal
  by_cases hs : (page - 1) * pageSize ≥ total
  · rw [if_pos hs]
    refine ⟨rfl, fun _ => rfl, ?_⟩
    simp [Nat.sub_eq_zero_of_le hs]
  · rw [if_neg hs]
    refine ⟨rfl, fun hc => absurd hc hs, ?_⟩
    have hsortlen :
        (sortTasks (tasks.filter (listMatch userID filterStatus)) sortBy
          sortOrder).length = total := by
      simp [sortTasks, htotal]
    simp only [List.length_take, List.length_drop, hsortlen, Nat.min_def]
    split_ifs <;> omega

/-- Witness for C8: page 1000000 of size 20 against 5 matching tasks is
empty with total 5. -/
theorem C8_pagination_witness :
    (repoList tasks5 "user" "" 1000000 20 "startTime" "desc").1 = [] ∧
    (repoList tasks5 "user" "" 1000000 20 "startTime" "desc").2 = 5 := by
  have h := C8_pagination tasks5 "user" "" 1000000 20 "startTime" "desc"
    (by omega)
  refine ⟨h.2.1 (by decide), ?_⟩
  rw [h.1]
  decide

/-! ## C1: the worker-pool bound -/

/-- countSlots distributes over append. -/
theorem countSlots_append (l₁ l₂ : List WorkerTask) :
    countSlots (l₁ ++ l₂) = countSlots l₁ + countSlots l₂ := by
  simp [countSlots, List.countP_append]

/-- countSlots on a cons. -/
theorem countSlots_cons (t : WorkerTask) (l : List WorkerTask) :
    countSlots (t :: l) = countSlots l + (if t.holdsSlot then 1 else 0) := by
  simp [countSlots, List.countP_cons]

/-- The scheduler invariant holds in the initial state. -/
theorem schedInv_init (maxWorkers : Nat) : SchedInv maxWorkers initSchedState := by
  refine ⟨Nat.zero_le _, rfl, ?_⟩
  intro t ht
  simp [initSchedState] at ht

/-- Every scheduler step preserves the invariant. -/
theorem schedInv_step {maxWorkers : Nat} {s s' : SchedState}
    (hs : SchedInv maxWorkers s) (st : SchedStep maxWorkers s s') :
    SchedInv maxWorkers s' := by
  obtain ⟨hle, hcount, hrun⟩ := hs
  cases st with
  | createTask =>
    refine ⟨hle, ?_, ?_⟩
    · have h1 : countSlots [(⟨ScanStatus.queued, false⟩ : WorkerTask)] = 0 := by
        decide
      rw [countSlots_append, h1, hcount]
      rfl
    · intro t ht hst
      rcases List.mem_append.mp ht with hmem | hmem
      · exact hrun t hmem hst
      · simp at hmem
        subst hmem
        simp at hst
  | sweepTick => exact ⟨hle, hcount, hrun⟩
  | acquireSlot pre post hlt heq =>
    rw [heq] at hcount hrun
    refine ⟨show s.slotsHeld + 1 ≤ maxWorkers by omega, ?_, ?_⟩
    · simp only [countSlots_append, countSlots_cons] at hcount ⊢
      simp at hcount ⊢
      omega
    · intro t ht hst
      rcases List.mem_append.mp ht with hmem | hmem
      · exact hrun t (List.mem_append_left _ hmem) hst
      · rcases List.mem_cons.mp hmem with rfl | hmem
        · rfl
        · exact hrun t
            (List.mem_append_right _ (List.mem_cons_of_mem _ hmem)) hst
  | startScan pre post heq =>
    rw [heq] at hcount hrun
    refine ⟨hle, ?_, ?_⟩
    · simp only [countSlots_append, countSlots_cons] at hcount ⊢
      simp at hcount ⊢
      omega
    · intro t ht hst
      rcases List.mem_append.mp ht with hmem | hmem
      · exact hrun t (List.mem_append_left _ hmem) hst
      · rcases List.mem_cons.mp hmem with rfl | hmem
        · rfl
        · exact hrun t
            (List.mem_append_right _ (List.mem_cons_of_mem _ hmem)) hst
  | finishCompleted pre post heq =>
    rw [heq] at hcount hrun
    refine ⟨hle, ?_, ?_⟩
    · simp only [countSlots_append, countSlots_cons] at hcount ⊢
      simp at hcount ⊢
      omega
    · intro t ht hst
      rcases List.mem_append.mp ht with hmem | hmem
      · exact hrun t (List.mem_append_left _ hmem) hst
      · rcases List.mem_cons.mp hmem with rfl | hmem
        · simp at hst
        · exact hrun t
            (List.mem_append_right _ (List.mem_cons_of_mem _ hmem)) hst
  | finishFailed pre post heq =>
    rw [heq] at hcount hrun
    refine ⟨hle, ?_, ?_⟩
    · simp only [countSlots_append, countSlots_cons] at hcount ⊢
      simp at hcount ⊢
      omega
    · intro t ht hst
      rcases List.mem_append.mp ht with hmem | hmem
      · exact hrun t (List.mem_append_left _ hmem) hst
      · rcases List.mem_cons.mp hmem with rfl | hmem
        · simp at hst
        · exact hrun t
            (List.mem_append_right _ (List.mem_cons_of_mem _ hmem)) hst
  | releaseSlot stv pre post hterm heq =>
    rw [heq] at hcount hrun
    refine ⟨show s.slotsHeld - 1 ≤ maxWorkers by omega, ?_, ?_⟩
    · simp only [countSlots_append, countSlots_cons] at hcount ⊢
      simp at hcount ⊢
      omega
    · intro t ht hst
      rcases List.mem_append.mp ht with hmem | hmem
      · exact hrun t (List.mem_append_left _ hmem) hst
      · rcases List.mem_cons.mp hmem with rfl | hmem
        · rcases hterm with rfl | rfl <;> simp at hst
        · exact hrun t
            (List.mem_append_right _ (List.mem_cons_of_mem _ hmem)) hst

/-- Invariance along reachability. -/
theorem schedReachable_inv {configured : Int} {s : SchedState}
    (h : SchedReachable configured s) :
    SchedInv (effectiveMaxWorkers configured) s := by
  induction h with
  | refl => exact schedInv_init _
  | tail h1 st ih => exact schedInv_step ih st

/-- Running tasks all hold slots, so they are at most the held slots. -/
theorem countRunning_le_countSlots (ts : List WorkerTask)
    (h : ∀ t ∈ ts, t.status = ScanStatus.running → t.holdsSlot = true) :
    countRunning ts ≤ countSlots ts := by
  refine List.countP_mono_left ?_
  intro t ht hp
  simp only [beq_iff_eq, decide_eq_true_eq] at hp
  exact h t ht hp

/-- C1.  In every reachable scheduler state the number of tasks in running
status is at most the worker-pool capacity — MaxWorkers, or the default 5
when the configured value is at most 0 — because every running task's
goroutine holds a workerPool slot (acquired before executeScan, released by
the deferred receive afterwards) and at most maxWorkers slots exist. -/
theorem C1_worker_pool_bound (configured : Int) (s : SchedState)
    (h : SchedReachable configured s) :
    countRunning s.tasks ≤ effectiveMaxWorkers configured ∧
    ∀ t ∈ s.tasks, t.status = ScanStatus.running → t.holdsSlot = true := by
  obtain ⟨hle, hcount, hrun⟩ := schedReachable_inv h
  exact ⟨le_trans (countRunning_le_countSlots _ hrun) (hcount ▸ hle), hrun⟩

/-- Witness for C1: a state with one admitted running scan, reached with the
default pool size (configured value 0). -/
theorem C1_worker_pool_bound_witness :
    SchedReachable 0 ⟨1, [⟨ScanStatus.running, true⟩]⟩ ∧
    countRunning [(⟨ScanStatus.running, true⟩ : WorkerTask)] ≤
      effectiveMaxWorkers 0 := by
  have hreach : SchedReachable 0 ⟨1, [⟨ScanStatus.running, true⟩]⟩ := by
    have s1 : SchedStep (effectiveMaxWorkers 0) initSchedState
        ⟨0, [⟨ScanStatus.queued, false⟩]⟩ :=
      SchedStep.createTask initSchedState
    have s2 : SchedStep (effectiveMaxWorkers 0)
        ⟨0, [⟨ScanStatus.queued, false⟩]⟩ ⟨1, [⟨ScanStatus.queued, true⟩]⟩ :=
      SchedStep.acquireSlot _ [] [] (by decide) rfl
    have s3 : SchedStep (effectiveMaxWorkers 0)
        ⟨1, [⟨ScanStatus.queued, true⟩]⟩ ⟨1, [⟨ScanStatus.running, true⟩]⟩ :=
      SchedStep.startScan _ [] [] rfl
    exact Relation.ReflTransGen.tail
      (Relation.ReflTransGen.tail
        (Relation.ReflTransGen.tail Relation.ReflTransGen.refl s1) s2) s3
  exact ⟨hreach, (C1_worker_pool_bound 0 _ hreach).1⟩

/-! ## C4: the log stream of StreamLogs -/

/-- Folding AddLog over a line list appends exactly those lines to the
log. -/
theorem foldl_addLog_logLines (later : List String) (t : ScanTask) :
    (later.foldl ScanTask.AddLog t).logLines = t.logLines ++ later := by
  induction later generalizing t with
  | nil => simp
  | cons l ls ih =>
    rw [List.foldl_cons, ih]
    simp [ScanTask.AddLog]

/-- As long as an open listener's buffer does not overflow, folding AddLog
delivers every line, in order, at the end of its buffer. -/
theorem foldl_addLog_listener (later : List String) (t : ScanTask) (i : Nat)
    (buf : List String)
    (hch : t.logListeners[i]? = some { buf := buf, closed := false })
    (hlen : buf.length + later.length ≤ listenerCapacity) :
    (later.foldl ScanTask.AddLog t).logListeners[i]? =
      some { buf := buf ++ later, closed := false } := by
  induction later generalizing t buf with
  | nil => simpa using hch
  | cons l ls ih =>
    have hc : buf.length < listenerCapacity := by
      simp only [List.length_cons] at hlen
      omega
    have hstep : (t.AddLog l).logListeners[i]? =
        some { buf := buf ++ [l], closed := false } := by
      simp [ScanTask.AddLog, List.getElem?_map, hch, hc]
    rw [List.foldl_cons]
    have hres := ih (t.AddLog l) (buf ++ [l]) hstep
      (by simp only [List.length_append, List.length_cons,
            List.length_nil] at hlen ⊢
          omega)
    simpa [List.append_assoc] using hres

/-- C4 (amended).  A subscriber that connects through StreamLogs — register
a listener, replay the GetLogLines snapshot, then drain the channel —
against a task with n lines already appended receives exactly those n
historical lines in append order, then the subsequently appended lines in
order, then the channel close, PROVIDED the subsequent lines fit in the
listener's 100-slot buffer before the drain; a line appended while the
buffer holds 100 undelivered lines is dropped (AddLog's non-blocking send),
which is what the unconditional claim misses. -/
theorem C4_stream_logs (t : ScanTask) (later : List String)
    (hlen : later.length ≤ listenerCapacity) :
    streamLogsRun t later = (t.logLines ++ later, true) := by
  have hidx : (t.AddLogListener).1.logListeners[(t.AddLogListener).2]? =
      some { buf := [], closed := false } := by
    simp only [ScanTask.AddLogListener]
    exact List.getElem?_concat_length _ _
  have hfold := foldl_addLog_listener later (t.AddLogListener).1
    (t.AddLogListener).2 [] hidx (by simpa using hlen)
  have hclose :
      ((later.foldl ScanTask.AddLog
          (t.AddLogListener).1).CloseAllLogListeners).2[(t.AddLogListener).2]? =
        some { buf := later, closed := true } := by
    simp only [ScanTask.CloseAllLogListeners, List.getElem?_map, hfold,
      Option.map_some]
    simp
  simp only [streamLogsRun, hclose, ScanTask.GetLogLines]
  rfl

/-- Witness for C4: two historical lines, then two live lines, then the
close. -/
theorem C4_stream_logs_witness :
    streamLogsRun
        ({ sampleTask "c4w" ScanStatus.running 0 none with
            logLines := ["h1", "h2"] } : ScanTask) ["l1", "l2"] =
      (["h1", "h2"] ++ ["l1", "l2"], true) := by
  exact C4_stream_logs
    ({ sampleTask "c4w" ScanStatus.running 0 none with
        logLines := ["h1", "h2"] } : ScanTask) ["l1", "l2"]
    (by simp [listenerCapacity])

set_option maxRecDepth 8000 in
/-- C4 counterexample: when 101 lines are appended before the subscriber
drains, the 100-slot buffer drops the last one, so the subscriber does NOT
receive every subsequently appended line followed by the close, contrary to
the unconditional claim. -/
theorem C4_stream_logs_counterexample :
    streamLogsRun (sampleTask "c4" ScanStatus.running 0 none)
        (List.replicate 101 "line") ≠
      ((sampleTask "c4" ScanStatus.running 0 none).logLines ++
        List.replicate 101 "line", true) := by
  decide

/-! ## C10: credential masking -/

/-- A non-flag head passes through the maskRec scan. -/
theorem maskRec_cons_notTrigger (a : String) (l : List String)
    (h : ¬(a = "--password" ∨ a = "--username")) :
    maskRec (a :: l) = a :: maskRec l := by
  cases l with
  | nil => simp [maskRec]
  | cons b rest => simp [maskRec, h]

/-- A credential flag masks its successor with "***"; scanning resumes
behind the overwritten entry. -/
theorem maskRec_cons_trigger (a v : String) (l : List String)
    (h : a = "--password" ∨ a = "--username") :
    maskRec (a :: v :: l) = a :: "***" :: maskRec l := by
  simp [maskRec, h]

/-- The index loop of maskCredentials computes the maskRec scan: running the
loop from position pre.length over pre ++ l leaves pre alone and rewrites l
like maskRec. -/
theorem maskLoop_eq_maskRec : ∀ (l pre : List String),
    maskCredentialsLoop (pre ++ l) pre.length = pre ++ maskRec l
  | [], pre => by
      unfold maskCredentialsLoop
      simp [maskRec]
  | [a], pre => by
      unfold maskCredentialsLoop
      simp [maskRec]
  | a :: b :: rest, pre => by
      unfold maskCredentialsLoop
      have hlt : pre.length + 1 < (pre ++ a :: b :: rest).length := by
        simp
      rw [dif_pos hlt]
      have hget : (pre ++ a :: b :: rest).get ⟨pre.length, by simp⟩ = a := by
        rw [List.get_eq_getElem, List.getElem_append_right (Nat.le_refl _)]
        simp
      rw [hget]
      by_cases htr : a = "--password" ∨ a = "--username"
      · rw [if_pos htr]
        have hset : (pre ++ a :: b :: rest).set (pre.length + 1) "***" =
            (pre ++ [a]) ++ "***" :: rest := by
          rw [List.set_append, if_neg (by omega)]
          have h1 : pre.length + 1 - pre.length = 1 := by omega
          rw [h1]
          simp
        have h2 : pre.length + 1 = (pre ++ [a]).length := by simp
        rw [hset, h2, maskLoop_eq_maskRec ("***" :: rest) (pre ++ [a]),
          maskRec_cons_notTrigger "***" rest (by decide),
          maskRec_cons_trigger a b rest htr]
        simp
      · rw [if_neg htr]
        have h3 : pre ++ a :: b :: rest = (pre ++ [a]) ++ b :: rest := by
          simp
        have h2 : pre.length + 1 = (pre ++ [a]).length := by simp
        rw [h3, h2, maskLoop_eq_maskRec (b :: rest) (pre ++ [a]),
          maskRec_cons_notTrigger a (b :: rest) htr]
        simp
termination_by l pre => l.length
decreasing_by
  · simp
  · simp

/-- maskCredentials is the maskRec scan. -/
theorem maskCredentials_eq_maskRec (args : List String) :
    maskCredentials args = maskRec args := by
  have h := maskLoop_eq_maskRec args []
  simpa [maskCredentials] using h

/-- C10 counterexample.  On the argument list
["--username", "--password", "secret"] the loop first masks the entry after
"--username" — overwriting the "--password" occurrence with "***" — and the
overwritten position no longer matches when the loop reaches it, so "secret"
is NOT replaced; the claimed masking (every argument one past a
"--username"/"--password" occurrence of the original list becomes "***")
would replace it.  maskCredentials therefore differs from the claimed
behaviour. -/
theorem C10_mask_counterexample :
    maskCredentials ["--username", "--password", "secret"] ≠
      maskSpecClaim ["--username", "--password", "secret"] := by
  rw [maskCredentials_eq_maskRec]
  decide

/-- The five fixed arguments between the server section and the credential
section pass through the scan unchanged. -/
theorem maskRec_fixedMid (X : List String) :
    maskRec ("--skip-db-update" :: "--image-src" :: "remote" ::
        "--timeout" :: "10m" :: X) =
      "--skip-db-update" :: "--image-src" :: "remote" ::
        "--timeout" :: "10m" :: maskRec X := by
  rw [maskRec_cons_notTrigger _ _ (by decide),
    maskRec_cons_notTrigger _ _ (by decide),
    maskRec_cons_notTrigger _ _ (by decide),
    maskRec_cons_notTrigger _ _ (by decide),
    maskRec_cons_notTrigger _ _ (by decide)]

/-- The scan of the built argument list factors through a prefix that
depends only on the server URL. -/
theorem maskRec_prefix_factor (u : String) :
    ∃ Q : List String, ∀ X : List String,
      maskRec ("image" :: ((if u ≠ "" then ["--server", u] else []) ++
        ("--skip-db-update" :: "--image-src" :: "remote" ::
          "--timeout" :: "10m" :: X))) = Q ++ maskRec X := by
  by_cases hu : u = ""
  · refine ⟨["image", "--skip-db-update", "--image-src", "remote",
      "--timeout", "10m"], fun X => ?_⟩
    simp only [hu, ne_eq, not_true_eq_false, if_false, List.nil_append]
    rw [maskRec_cons_notTrigger _ _ (by decide), maskRec_fixedMid]
    simp
  · by_cases htr : u = "--password" ∨ u = "--username"
    · refine ⟨["image", "--server", u, "***", "--image-src", "remote",
        "--timeout", "10m"], fun X => ?_⟩
      simp only [hu, ne_eq, not_false_iff, if_true, List.cons_append,
        List.nil_append]
      rw [maskRec_cons_notTrigger _ _ (by decide),
        maskRec_cons_notTrigger _ _ (by decide),
        maskRec_cons_trigger _ _ _ htr,
        maskRec_cons_notTrigger _ _ (by decide),
        maskRec_cons_notTrigger _ _ (by decide),
        maskRec_cons_notTrigger _ _ (by decide),
        maskRec_cons_notTrigger _ _ (by decide)]
    · refine ⟨["image", "--server", u, "--skip-db-update", "--image-src",
        "remote", "--timeout", "10m"], fun X => ?_⟩
      simp only [hu, ne_eq, not_false_iff, if_true, List.cons_append,
        List.nil_append]
      rw [maskRec_cons_notTrigger _ _ (by decide),
        maskRec_cons_notTrigger _ _ (by decide),
        maskRec_cons_notTrigger _ _ htr, maskRec_fixedMid]

/-- The credential section always comes out as the flags followed by "***",
independently of the credential values. -/
theorem maskRec_credSegment (U P : String) (tl : List String) :
    maskRec ((if U ≠ "" then ["--username", U] else []) ++
        ((if P ≠ "" then ["--password", P] else []) ++ tl)) =
      (if U ≠ "" then ["--username", "***"] else []) ++
        ((if P ≠ "" then ["--password", "***"] else []) ++ maskRec tl) := by
  by_cases hU : U = "" <;> by_cases hP : P = ""
  · simp [hU, hP]
  · simp only [hU, hP, ne_eq, not_true_eq_false, if_false, not_false_iff,
      if_true, List.nil_append, List.cons_append]
    rw [maskRec_cons_trigger _ _ _ (Or.inl rfl)]
  · simp only [hU, hP, ne_eq, not_true_eq_false, if_false, not_false_iff,
      if_true, List.append_nil, List.cons_append, List.nil_append]
    rw [maskRec_cons_trigger _ _ _ (Or.inr rfl)]
  · simp only [hU, hP, ne_eq, not_false_iff, if_true, List.cons_append,
      List.nil_append]
    rw [maskRec_cons_trigger _ _ _ (Or.inr rfl),
      maskRec_cons_trigger _ _ _ (Or.inl rfl)]

/-- C10 (amended).  The command line executeScan records is the argument
list rewritten by the left-to-right scan of maskCredentials: an entry is
replaced by "***" exactly when the preceding entry of the already-masked
list equals "--username" or "--password" (so a flag whose own position was
just overwritten does not trigger, and any value equal to a flag string
does).  Consequently, two tasks whose configurations agree on everything but
the username and password values — each field being empty in one exactly
when it is empty in the other — produce the identical logged command line:
the credential values are replaced by "***" and never reach the log. -/
theorem C10_masked_line_hyperproperty (serverURL image : String)
    (c1 c2 : ScanConfig)
    (hU : (c1.username = "") ↔ (c2.username = ""))
    (hP : (c1.password = "") ↔ (c2.password = ""))
    (htls : c1.tlsVerify = c2.tlsVerify) (hsev : c1.severity = c2.severity)
    (hunf : c1.ignoreUnfixed = c2.ignoreUnfixed)
    (hsc : c1.scanners = c2.scanners)
    (hdp : c1.detectionPriority = c2.detectionPriority)
    (hpk : c1.pkgTypes = c2.pkgTypes) (hfm : c1.format = c2.format) :
    loggedCommand serverURL c1 image = loggedCommand serverURL c2 image := by
  have htail : argsTail c1 image = argsTail c2 image := by
    simp [argsTail, htls, hsev, hunf, hsc, hdp, hpk, hfm]
  have hUflag : (if c1.username ≠ "" then ["--username", "***"] else []) =
      (if c2.username ≠ "" then ["--username", "***"] else []) := by
    by_cases h : c1.username = ""
    · simp [h, hU.mp h]
    · have h2 : ¬c2.username = "" := fun hh => h (hU.mpr hh)
      simp [h, h2]
  have hPflag : (if c1.password ≠ "" then ["--password", "***"] else []) =
      (if c2.password ≠ "" then ["--password", "***"] else []) := by
    by_cases h : c1.password = ""
    · simp [h, hP.mp h]
    · have h2 : ¬c2.password = "" := fun hh => h (hP.mpr hh)
      simp [h, h2]
  obtain ⟨Q, hQ⟩ := maskRec_prefix_factor serverURL
  have hbuild : ∀ cfg : ScanConfig,
      buildTrivyArgs serverURL cfg image =
        "image" :: ((if serverURL ≠ "" then ["--server", serverURL] else []) ++
          ("--skip-db-update" :: "--image-src" :: "remote" ::
            "--timeout" :: "10m" ::
            ((if cfg.username ≠ "" then ["--username", cfg.username] else []) ++
              ((if cfg.password ≠ "" then ["--password", cfg.password]
                  else []) ++ argsTail cfg image)))) := by
    intro cfg
    simp [buildTrivyArgs, List.append_assoc]
  have hmask : maskRec (buildTrivyArgs serverURL c1 image) =
      maskRec (buildTrivyArgs serverURL c2 image) := by
    calc maskRec (buildTrivyArgs serverURL c1 image)
        = Q ++ ((if c1.username ≠ "" then ["--username", "***"] else []) ++
            ((if c1.password ≠ "" then ["--password", "***"] else []) ++
              maskRec (argsTail c1 image))) := by
          rw [hbuild c1, hQ, maskRec_credSegment]
      _ = Q ++ ((if c2.username ≠ "" then ["--username", "***"] else []) ++
            ((if c2.password ≠ "" then ["--password", "***"] else []) ++
              maskRec (argsTail c2 image))) := by
          rw [hUflag, hPflag, htail]
      _ = maskRec (buildTrivyArgs serverURL c2 image) := by
          rw [hbuild c2, hQ, maskRec_credSegment]
  simp only [loggedCommand, maskCredentials_eq_maskRec, hmask]

/-- Witness for C10: two configurations differing only in their non-empty
credentials log the same command line. -/
theorem C10_masked_line_hyperproperty_witness :
    loggedCommand "http://trivy:4954"
        ({ sampleConfig with username := "alice", password := "s3cret" } :
          ScanConfig) "alpine:latest" =
      loggedCommand "http://trivy:4954"
        ({ sampleConfig with username := "bob", password := "hunter2" } :
          ScanConfig) "alpine:latest" := by
  exact C10_masked_line_hyperproperty "http://trivy:4954" "alpine:latest"
    ({ sampleConfig with username := "alice", password := "s3cret" } :
      ScanConfig)
    ({ sampleConfig with username := "bob", password := "hunter2" } :
      ScanConfig)
    (by simp) (by simp) rfl rfl rfl rfl rfl rfl rfl

end TrivyWeb
